import Mathlib

/-!
Verification development for the `us_daily` snapshot dashboard
(`src/streamlit_app.py`).

The pipeline of `load_and_process_data` is modelled at two levels:

* a row-level model (`Cell`, `DailyRow`, `WeeklyRow`, `SnapshotRow`,
  `load_and_process_rows`) describing which values end up in each
  snapshot row, assuming the full schema is present and all dates
  parsed (`pd.to_datetime` succeeded, so `date` is stored as a
  comparable number here); and
* a column-level model (`load_and_process_cols`) describing which
  columns the returned frame has, and when the function raises a
  `KeyError` because a source column is absent.

Pandas specifics that matter here and are modelled faithfully:

* `sort_values("date")` sorts rows by date ascending; the order of rows
  with equal dates is arbitrary (pandas uses an unstable quicksort by
  default), and no property proved below depends on the tie order.
* `DataFrameGroupBy.last()` / `SeriesGroupBy.last()` take, per column,
  the last non-null value within the group, not the whole max-date row.
* the two `merge(..., on="ticker", how="left")` calls join tables whose
  right side is keyed uniquely by ticker (both are `groupby("ticker")`
  results), so they are modelled as per-ticker lookups; a ticker with no
  weekly row gets a null stage.
* scalar comparisons on a column (`>= 0.85`, `<= 4`, `== 2`) are false
  on null cells, and `== 2` is false on string cells.
-/

deriving instance DecidableEq for Except

/-- A pandas cell: a numeric value, a string value, or a null (`NaN`). -/
inductive Cell where
  | num (q : ℚ)
  | str (s : String)
  | missing
deriving DecidableEq, Repr

/-- One row of the daily CSV, after `pd.to_datetime` parsed the `date`
column (dates are modelled as rationals; only their order matters). The
measure columns can each hold a null. -/
structure DailyRow where
  ticker : String
  date : ℚ
  rs_to_spy : Cell
  ret_intraday : Cell
  ret_1d : Cell
  rs_rank_21d : Cell
  rs_rank_252d : Cell
  pp_volume : Cell
  ratio_pct_dist_to_atr_pct : Cell
  above_sma10 : Cell
  above_sma20 : Cell
  group : Cell
deriving DecidableEq, Repr

/-- One row of the weekly CSV after date parsing. -/
structure WeeklyRow where
  ticker : String
  date : ℚ
  stage_label_core : Cell
deriving DecidableEq, Repr

/-- One row of the merged snapshot frame returned by
`load_and_process_data`, restricted to the columns it actually returns
(`available_cols + ["group"]`); `date` and the latest `rs_to_spy` are
dropped by that selection.  Fields are named by their source column;
`rsTrend` is the derived `"RS Trend"` column and `stage` the weekly
`stage_label_core`. -/
structure SnapshotRow where
  ticker : String
  rsTrend : List Cell
  ret_intraday : Cell
  ret_1d : Cell
  rs_rank_21d : Cell
  rs_rank_252d : Cell
  pp_volume : Cell
  ratio_pct_dist_to_atr_pct : Cell
  above_sma10 : Cell
  above_sma20 : Cell
  group : Cell
  stage : Cell
deriving DecidableEq, Repr

/-- `df_daily.sort_values("date")`: rows in date-ascending order. -/
def sortDaily (rows : List DailyRow) : List DailyRow :=
  List.insertionSort (fun a b => a.date ≤ b.date) rows

/-- `df_weekly.sort_values("date")`: rows in date-ascending order. -/
def sortWeekly (rows : List WeeklyRow) : List WeeklyRow :=
  List.insertionSort (fun a b => a.date ≤ b.date) rows

/-- The date-sorted daily rows of one ticker (one group of
`df_daily.sort_values("date").groupby("ticker")`). -/
def tickerRowsSorted (daily : List DailyRow) (t : String) : List DailyRow :=
  (sortDaily daily).filter (fun r => r.ticker = t)

/-- The last non-null cell of a list, or null if there is none: the
per-column behaviour of pandas `GroupBy.last()`. -/
def lastNonNull : List Cell → Cell
  | [] => Cell.missing
  | c :: cs =>
    match lastNonNull cs with
    | Cell.missing => c
    | d => d

/-- One column of `df_daily.sort_values("date").groupby("ticker").last()`:
the last non-null value of column `f` among the ticker's date-sorted
rows. -/
def latestCell (daily : List DailyRow) (t : String) (f : DailyRow → Cell) : Cell :=
  lastNonNull ((tickerRowsSorted daily t).map f)

/-- `df_weekly.sort_values("date").groupby("ticker")["stage_label_core"].last()`
followed by the left merge: a ticker with no weekly row gets a null
stage (an empty list has no last non-null cell). -/
def stageCell (weekly : List WeeklyRow) (t : String) : Cell :=
  lastNonNull (((sortWeekly weekly).filter (fun w => w.ticker = t)).map
    (fun w => w.stage_label_core))

/-- The distinct tickers of the daily table: the group keys of
`groupby("ticker")` (pandas orders the groups by key; no property below
depends on the order of the output rows). -/
def dailyTickers (daily : List DailyRow) : List String :=
  (daily.map (fun r => r.ticker)).dedup

/-- Row-level model of `load_and_process_data`: one snapshot row per
distinct daily ticker, carrying the date-ordered `rs_to_spy` trend, the
per-column last non-null daily values, and the latest weekly stage. -/
def load_and_process_rows (daily : List DailyRow) (weekly : List WeeklyRow) :
    List SnapshotRow :=
  (dailyTickers daily).map (fun t =>
    { ticker := t
      rsTrend := (tickerRowsSorted daily t).map (fun r => r.rs_to_spy)
      ret_intraday := latestCell daily t (fun r => r.ret_intraday)
      ret_1d := latestCell daily t (fun r => r.ret_1d)
      rs_rank_21d := latestCell daily t (fun r => r.rs_rank_21d)
      rs_rank_252d := latestCell daily t (fun r => r.rs_rank_252d)
      pp_volume := latestCell daily t (fun r => r.pp_volume)
      ratio_pct_dist_to_atr_pct := latestCell daily t (fun r => r.ratio_pct_dist_to_atr_pct)
      above_sma10 := latestCell daily t (fun r => r.above_sma10)
      above_sma20 := latestCell daily t (fun r => r.above_sma20)
      group := latestCell daily t (fun r => r.group)
      stage := stageCell weekly t })

/-- `GROUP_ORDER` from the source. -/
def GROUP_ORDER : List String :=
  ["Market", "Sector", "Commodity", "Crypto", "Country", "Theme", "Leader"]

/-- `DISPLAY_ORDER` from the source. -/
def DISPLAY_ORDER : List String :=
  ["Ticker", "RS Trend", "RS 1M", "RS 1Y", "Volume",
   "Intraday", "1D Return", "Extension",
   "> SMA10", "> SMA20", "Stage"]

/-- `COLUMN_RENAME` from the source. -/
def COLUMN_RENAME : List (String × String) :=
  [("ticker", "Ticker"),
   ("ret_intraday", "Intraday"),
   ("ret_1d", "1D Return"),
   ("rs_rank_21d", "RS 1M"),
   ("rs_rank_252d", "RS 1Y"),
   ("pp_volume", "Volume"),
   ("ratio_pct_dist_to_atr_pct", "Extension"),
   ("above_sma10", "> SMA10"),
   ("above_sma20", "> SMA20"),
   ("stage_label_core", "Stage"),
   ("group", "group")]

/-- `df.rename(columns=COLUMN_RENAME)` on one column name: renamed if it
is a key of the mapping, unchanged otherwise. -/
def renameCol (c : String) : String :=
  ((COLUMN_RENAME.find? (fun p => p.1 = c)).map (fun p => p.2)).getD c

/-- Column-level model of `load_and_process_data`: given the column
names of the two CSVs, the column names of the returned frame, or the
`KeyError` the function raises.  Column accesses happen in source
order: `df_daily["date"]`, `df_weekly["date"]`, then
`groupby("ticker")["rs_to_spy"]` on the daily table, then
`groupby("ticker")["stage_label_core"]` on the weekly table.  The
sparkline frame has columns `ticker`/`RS Trend`; `groupby.last()` keeps
every non-key daily column; the merges append the right side's non-key
columns; the final selection keeps the renamed columns that occur in
`DISPLAY_ORDER`, in that order, then appends `group` if present. -/
def load_and_process_cols (dailyCols weeklyCols : List String) :
    Except String (List String) :=
  if "date" ∉ dailyCols then Except.error "KeyError: date"
  else if "date" ∉ weeklyCols then Except.error "KeyError: date"
  else if "ticker" ∉ dailyCols then Except.error "KeyError: ticker"
  else if "rs_to_spy" ∉ dailyCols then Except.error "KeyError: rs_to_spy"
  else if "ticker" ∉ weeklyCols then Except.error "KeyError: ticker"
  else if "stage_label_core" ∉ weeklyCols then Except.error "KeyError: stage_label_core"
  else
    let sparkCols := ["ticker", "RS Trend"]
    let latestCols := "ticker" :: (dailyCols.erase "ticker")
    let stageCols := ["ticker", "stage_label_core"]
    let merged := (sparkCols ++ (latestCols.erase "ticker")) ++ (stageCols.erase "ticker")
    let renamed := merged.map renameCol
    Except.ok ((DISPLAY_ORDER.filter (fun c => c ∈ renamed)) ++
      (if "group" ∈ renamed then ["group"] else []))

/-- The full daily schema (§6 of the spec, and the CSV read by the app). -/
def full_daily_cols : List String :=
  ["ticker", "date", "rs_to_spy", "ret_intraday", "ret_1d", "rs_rank_21d",
   "rs_rank_252d", "pp_volume", "ratio_pct_dist_to_atr_pct",
   "above_sma10", "above_sma20", "group"]

/-- The full weekly schema. -/
def full_weekly_cols : List String :=
  ["ticker", "date", "stage_label_core"]

/-- The four sidebar toggles, in source order. -/
structure Toggles where
  hide_weak_rs_1m : Bool
  hide_weak_rs_1y : Bool
  limit_extension : Bool
  stage_2_only : Bool
deriving DecidableEq, Repr

/-- One cell of `series >= q`: false on a null and on a non-numeric
cell (the app applies this to the numeric rank columns). -/
def cellGe (c : Cell) (q : ℚ) : Bool :=
  match c with
  | Cell.num v => q ≤ v
  | _ => false

/-- One cell of `series <= q`. -/
def cellLe (c : Cell) (q : ℚ) : Bool :=
  match c with
  | Cell.num v => v ≤ q
  | _ => false

/-- One cell of `series == q` for a numeric scalar `q`: a numeric cell
compares by value, a null compares false, and a string cell compares
false (in pandas `"2" == 2` is `False`). -/
def cellEqNum (c : Cell) (q : ℚ) : Bool :=
  match c with
  | Cell.num v => v = q
  | _ => false

/-- One cell of `series == s` for a string scalar `s`. -/
def cellEqStr (c : Cell) (s : String) : Bool :=
  match c with
  | Cell.str t => t = s
  | _ => false

/-- The filter block of the app: each active toggle filters the frame
again, in source order.  (In the row-level model the full schema is
present, so the `in filtered_df.columns` guards of the source are all
true.)  `0.85` is written `mkRat 85 100`. -/
def applyFilters (t : Toggles) (rows : List SnapshotRow) : List SnapshotRow :=
  let r1 := if t.hide_weak_rs_1m then
      rows.filter (fun r => cellGe r.rs_rank_21d (mkRat 85 100)) else rows
  let r2 := if t.hide_weak_rs_1y then
      r1.filter (fun r => cellGe r.rs_rank_252d (mkRat 85 100)) else r1
  let r3 := if t.limit_extension then
      r2.filter (fun r => cellLe r.ratio_pct_dist_to_atr_pct 4) else r2
  if t.stage_2_only then r3.filter (fun r => cellEqNum r.stage 2) else r3

/-- The conjunction of the active filters, as one predicate. -/
def filterPred (t : Toggles) (r : SnapshotRow) : Bool :=
  (((!t.hide_weak_rs_1m || cellGe r.rs_rank_21d (mkRat 85 100)) &&
    (!t.hide_weak_rs_1y || cellGe r.rs_rank_252d (mkRat 85 100))) &&
   (!t.limit_extension || cellLe r.ratio_pct_dist_to_atr_pct 4)) &&
  (!t.stage_2_only || cellEqNum r.stage 2)

/-- One pass of the display loop for one group name: the filtered rows
whose `group` cell equals the name, or nothing when that group is empty
(`if group_df.empty: continue`). -/
def sectionFun (rows : List SnapshotRow) (g : String) :
    Option (String × List SnapshotRow) :=
  let gdf := rows.filter (fun r => cellEqStr r.group g)
  if gdf.isEmpty then none else some (g, gdf)

/-- The display loop: for each name of `GROUP_ORDER` in order, the
non-empty group sections. -/
def groupSections (rows : List SnapshotRow) : List (String × List SnapshotRow) :=
  GROUP_ORDER.filterMap (sectionFun rows)

/-- `style_extension` from the source, on an `Extension` cell of the
numeric column (`pd.isna` is the `none` case; `float(val)` is the
identity on a numeric value). -/
def style_extension (val : Option ℚ) : String :=
  match val with
  | none => ""
  | some v =>
    if v < 0 then "background-color: #e0e0e0; font-weight: bold"
    else if v ≤ 4 then "background-color: #d4f4dd; font-weight: bold"
    else if v ≤ 10 then "background-color: #fff7cc; font-weight: bold"
    else "background-color: #f4d4d4; font-weight: bold"

/-- `volume_icon` from the source.  `icons.get(str(v), "⚪")`: a null is
caught by `pd.notna` first; a string cell looks its text up in the
dictionary; `str()` of a numeric value is a digit string, never the key
`"Pocket"` or `"Normal"`, so a numeric cell falls to the default. -/
def volume_icon (v : Cell) : String :=
  match v with
  | Cell.missing => "⚪"
  | Cell.str s => if s = "Pocket" then "💎" else if s = "Normal" then "⚪" else "⚪"
  | Cell.num _ => "⚪"

/-- C7: the extension styling rule: a missing value gets no style; a
negative value the grey "neutral" style; `0 ≤ v ≤ 4` the green "strong"
style; `4 < v ≤ 10` the yellow "caution" style; `v > 10` the red "weak"
style.  The thresholds are inclusive downwards: exactly 4 is "strong"
and exactly 10 is "caution". -/
theorem c7_style_extension_thresholds (v : ℚ) :
    style_extension none = ""
    ∧ (v < 0 →
        style_extension (some v) = "background-color: #e0e0e0; font-weight: bold")
    ∧ (0 ≤ v → v ≤ 4 →
        style_extension (some v) = "background-color: #d4f4dd; font-weight: bold")
    ∧ (4 < v → v ≤ 10 →
        style_extension (some v) = "background-color: #fff7cc; font-weight: bold")
    ∧ (10 < v →
        style_extension (some v) = "background-color: #f4d4d4; font-weight: bold")
    ∧ style_extension (some 4) = "background-color: #d4f4dd; font-weight: bold"
    ∧ style_extension (some 10) = "background-color: #fff7cc; font-weight: bold" := by
  refine ⟨rfl, ?_, ?_, ?_, ?_, by decide, by decide⟩
  · intro h
    simp only [style_extension]
    rw [if_pos h]
  · intro h0 h4
    simp only [style_extension]
    rw [if_neg (not_lt.2 h0), if_pos h4]
  · intro h4 h10
    have hn : ¬ v < 0 := not_lt.2 (le_trans (by norm_num) h4.le)
    simp only [style_extension]
    rw [if_neg hn, if_neg (not_le.2 h4), if_pos h10]
  · intro h10
    have h4 : (4 : ℚ) < v := lt_trans (by norm_num) h10
    have hn : ¬ v < 0 := not_lt.2 (le_trans (by norm_num) h4.le)
    simp only [style_extension]
    rw [if_neg hn, if_neg (not_le.2 h4), if_neg (not_le.2 h10)]

/-- C7 witness: the rule evaluated at -1, 3, 5 and 11. -/
theorem c7_style_extension_thresholds_witness :
    style_extension (some (-1)) = "background-color: #e0e0e0; font-weight: bold"
    ∧ style_extension (some 3) = "background-color: #d4f4dd; font-weight: bold"
    ∧ style_extension (some 5) = "background-color: #fff7cc; font-weight: bold"
    ∧ style_extension (some 11) = "background-color: #f4d4d4; font-weight: bold" :=
  ⟨(c7_style_extension_thresholds (-1)).2.1 (by norm_num),
   (c7_style_extension_thresholds 3).2.2.1 (by norm_num) (by norm_num),
   (c7_style_extension_thresholds 5).2.2.2.1 (by norm_num) (by norm_num),
   (c7_style_extension_thresholds 11).2.2.2.2.1 (by norm_num)⟩

/-- C9: `volume_icon` maps the labels "Pocket" and "Normal" to two
distinct markers, and every other value, a null included, to the
default marker. -/
theorem c9_volume_icon_markers :
    volume_icon (Cell.str "Pocket") = "💎"
    ∧ volume_icon (Cell.str "Normal") = "⚪"
    ∧ "💎" ≠ "⚪"
    ∧ volume_icon Cell.missing = "⚪"
    ∧ ∀ v : Cell, v ≠ Cell.str "Pocket" → v ≠ Cell.str "Normal" →
        volume_icon v = "⚪" := by
  refine ⟨rfl, rfl, by decide, rfl, ?_⟩
  intro v hp hn
  cases v with
  | num q => rfl
  | missing => rfl
  | str s =>
    have hs1 : s ≠ "Pocket" := fun h => hp (by rw [h])
    have hs2 : s ≠ "Normal" := fun h => hn (by rw [h])
    simp [volume_icon, hs1, hs2]

/-- C9 witness: an unknown label and a numeric cell both get the
default marker. -/
theorem c9_volume_icon_markers_witness :
    volume_icon (Cell.num 3) = "⚪" ∧ volume_icon (Cell.str "Elevated") = "⚪" :=
  ⟨c9_volume_icon_markers.2.2.2.2 (Cell.num 3) (by decide) (by decide),
   c9_volume_icon_markers.2.2.2.2 (Cell.str "Elevated") (by decide) (by decide)⟩

/-- C10: every value other than the label "Pocket" — "Normal" included,
as well as unknown labels, numbers and nulls — is mapped to one and the
same marker, so a "Normal" cell renders identically to an unknown or
missing one; only "Pocket" gets a visually distinct marker. -/
theorem c10_volume_icon_default (v : Cell) (h : v ≠ Cell.str "Pocket") :
    volume_icon v = "⚪"
    ∧ volume_icon v = volume_icon (Cell.str "Normal")
    ∧ volume_icon v = volume_icon Cell.missing
    ∧ volume_icon (Cell.str "Pocket") ≠ volume_icon v := by
  have hv : volume_icon v = "⚪" := by
    cases v with
    | num q => rfl
    | missing => rfl
    | str s =>
      have hs : s ≠ "Pocket" := fun hh => h (by rw [hh])
      by_cases h2 : s = "Normal"
      · simp [volume_icon, h2]
      · simp [volume_icon, hs, h2]
  exact ⟨hv, by rw [hv]; rfl, by rw [hv]; rfl, by rw [hv]; decide⟩

/-- C10 witness: "Normal" and a null get the marker of every
non-"Pocket" value, and "Pocket" differs from it. -/
theorem c10_volume_icon_default_witness :
    volume_icon (Cell.str "Normal") = "⚪"
    ∧ volume_icon (Cell.str "Pocket") ≠ volume_icon Cell.missing :=
  ⟨(c10_volume_icon_default (Cell.str "Normal") (by decide)).1,
   (c10_volume_icon_default Cell.missing (by decide)).2.2.2⟩

/-- C4: with the full schema, the builder's frame has exactly the
eleven display columns of `DISPLAY_ORDER`, in that fixed order,
followed by the internal `group` column; without a source `group`
column the frame is exactly `DISPLAY_ORDER`; the source `date` and
latest `rs_to_spy` columns do not appear in the output. -/
theorem c4_output_columns :
    load_and_process_cols full_daily_cols full_weekly_cols =
      Except.ok (DISPLAY_ORDER ++ ["group"])
    ∧ load_and_process_cols (full_daily_cols.erase "group") full_weekly_cols =
      Except.ok DISPLAY_ORDER
    ∧ "date" ∉ DISPLAY_ORDER ++ ["group"]
    ∧ "rs_to_spy" ∉ DISPLAY_ORDER ++ ["group"] := by decide

/-- C2 counterexample: with the required daily column `ret_intraday`
absent, the builder does not fail; it returns a frame that silently
omits the `Intraday` display column, contradicting the claim that every
absent schema column is a fatal schema error. -/
theorem c2_missing_column_counterexample :
    load_and_process_cols (full_daily_cols.erase "ret_intraday") full_weekly_cols =
      Except.ok ["Ticker", "RS Trend", "RS 1M", "RS 1Y", "Volume",
                 "1D Return", "Extension", "> SMA10", "> SMA20", "Stage", "group"]
    ∧ "Intraday" ∉ ["Ticker", "RS Trend", "RS 1M", "RS 1Y", "Volume",
                 "1D Return", "Extension", "> SMA10", "> SMA20", "Stage", "group"] := by
  decide

/-- C2 amended: the builder fails (with a `KeyError`) exactly when one
of the columns it accesses by name is absent — daily `ticker`, `date`,
`rs_to_spy`, or weekly `ticker`, `date`, `stage_label_core`.  When it
succeeds, the frame contains only display columns and `group`: any
other absent source column is silently omitted rather than
synthesized, and no partial column leaks through. -/
theorem c2_required_columns (dailyCols weeklyCols : List String) :
    ((load_and_process_cols dailyCols weeklyCols).isOk = true ↔
      ("date" ∈ dailyCols ∧ "date" ∈ weeklyCols ∧ "ticker" ∈ dailyCols ∧
       "rs_to_spy" ∈ dailyCols ∧ "ticker" ∈ weeklyCols ∧
       "stage_label_core" ∈ weeklyCols))
    ∧ (∀ cols, load_and_process_cols dailyCols weeklyCols = Except.ok cols →
        ∀ c ∈ cols, c ∈ DISPLAY_ORDER ∨ c = "group") := by
  constructor
  · unfold load_and_process_cols
    split_ifs with h1 h2 h3 h4 h5 h6 <;> simp_all [Except.isOk] <;> rfl
  · intro cols hok c hc
    unfold load_and_process_cols at hok
    split_ifs at hok
    simp only [Except.ok.injEq] at hok
    subst hok
    rcases List.mem_append.1 hc with hL | hR
    · exact Or.inl (List.mem_filter.1 hL).1
    · right
      split at hR
      · simpa using hR
      · cases hR

/-- C2 witness: the characterization applied to the full schema (the
builder succeeds) and to a daily table lacking `rs_to_spy` (it fails). -/
theorem c2_required_columns_witness :
    (load_and_process_cols full_daily_cols full_weekly_cols).isOk = true
    ∧ (load_and_process_cols (full_daily_cols.erase "rs_to_spy")
        full_weekly_cols).isOk ≠ true :=
  ⟨(c2_required_columns full_daily_cols full_weekly_cols).1.mpr (by decide),
   fun h => by
     have h2 := (c2_required_columns (full_daily_cols.erase "rs_to_spy")
       full_weekly_cols).1.mp h
     exact absurd h2.2.2.2.1 (by decide)⟩

/-- A cell equals the numeric scalar under the pandas `==` comparison
exactly when it stores that number. -/
theorem cellEqNum_eq_true_iff (c : Cell) (q : ℚ) :
    cellEqNum c q = true ↔ c = Cell.num q := by
  cases c <;> simp [cellEqNum]

/-- A cell equals the string scalar under the pandas `==` comparison
exactly when it stores that string. -/
theorem cellEqStr_eq_true_iff (c : Cell) (s : String) :
    cellEqStr c s = true ↔ c = Cell.str s := by
  cases c <;> simp [cellEqStr]

/-- One conditional filtering step, as an unconditional filter whose
predicate is trivially true when the toggle is off. -/
theorem filter_if_layer (b : Bool) (p : SnapshotRow → Bool) (l : List SnapshotRow) :
    (if b then l.filter p else l) = l.filter (fun x => !b || p x) := by
  cases b
  · simp
  · simp

/-- The sequential filter block equals one filter by the conjunction of
the active predicates. -/
theorem applyFilters_eq_filter (t : Toggles) (rows : List SnapshotRow) :
    applyFilters t rows = rows.filter (filterPred t) := by
  simp only [applyFilters]
  rw [filter_if_layer, filter_if_layer, filter_if_layer, filter_if_layer,
    List.filter_filter, List.filter_filter, List.filter_filter]
  apply List.filter_congr
  intro x _
  simp only [filterPred]
  obtain ⟨a, b, c, d⟩ := t
  cases a <;> cases b <;> cases c <;> cases d <;>
    cases cellGe x.rs_rank_21d (mkRat 85 100) <;>
    cases cellGe x.rs_rank_252d (mkRat 85 100) <;>
    cases cellLe x.ratio_pct_dist_to_atr_pct 4 <;>
    cases cellEqNum x.stage 2 <;> rfl

/-- A snapshot row whose stored stage cell is the string `"2"` (this is
what the stage column holds when the weekly CSV's `stage_label_core`
column is read with object dtype, i.e. contains some non-numeric
text). -/
def strTwoRow : SnapshotRow :=
  { ticker := "AAA"
    rsTrend := []
    ret_intraday := Cell.missing
    ret_1d := Cell.missing
    rs_rank_21d := Cell.missing
    rs_rank_252d := Cell.missing
    pp_volume := Cell.missing
    ratio_pct_dist_to_atr_pct := Cell.missing
    above_sma10 := Cell.missing
    above_sma20 := Cell.missing
    group := Cell.str "Market"
    stage := Cell.str "2" }

/-- C8 counterexample: a row whose stage cell is stored as the string
`"2"` is excluded by the Core Model filter, although the claim says a
string-typed representation of 2 compares equal and the row survives. -/
theorem c8_stage_filter_counterexample :
    strTwoRow.stage = Cell.str "2"
    ∧ applyFilters (Toggles.mk false false false true) [strTwoRow] =
      ([] : List SnapshotRow) := by decide

/-- C8 amended: with only the Core Model toggle active, a row survives
exactly when its stored stage cell is the number 2 (a float-typed 2 is
the same number, so it compares equal); a numeric stage 3, a null
stage, and a string-typed `"2"` are all excluded — in pandas `"2" == 2`
is `False`, so a string representation of 2 does not compare equal
under the stored representation. -/
theorem c8_stage_filter (rows : List SnapshotRow) (r : SnapshotRow) :
    (r ∈ applyFilters (Toggles.mk false false false true) rows ↔
      r ∈ rows ∧ r.stage = Cell.num 2)
    ∧ cellEqNum (Cell.num 3) 2 = false
    ∧ cellEqNum Cell.missing 2 = false
    ∧ cellEqNum (Cell.str "2") 2 = false := by
  refine ⟨?_, by decide, by decide, by decide⟩
  rw [applyFilters_eq_filter, List.mem_filter]
  constructor
  · rintro ⟨hmem, hpred⟩
    refine ⟨hmem, ?_⟩
    simp only [filterPred, Bool.not_false, Bool.not_true, Bool.true_or,
      Bool.false_or, Bool.true_and, Bool.and_true] at hpred
    exact (cellEqNum_eq_true_iff r.stage 2).1 hpred
  · rintro ⟨hmem, hstage⟩
    refine ⟨hmem, ?_⟩
    simp only [filterPred, Bool.not_false, Bool.not_true, Bool.true_or,
      Bool.false_or, Bool.true_and, Bool.and_true]
    exact (cellEqNum_eq_true_iff r.stage 2).2 hstage

/-- C8 witness: a numeric stage 2 row survives the Core Model filter, a
numeric stage 3 row does not. -/
theorem c8_stage_filter_witness :
    (strTwoRow ∈ applyFilters (Toggles.mk false false false true) [strTwoRow] ↔
      strTwoRow ∈ [strTwoRow] ∧ strTwoRow.stage = Cell.num 2)
    ∧ cellEqNum (Cell.num 3) 2 = false :=
  ⟨(c8_stage_filter [strTwoRow] strTwoRow).1,
   (c8_stage_filter [strTwoRow] strTwoRow).2.1⟩

/-- One toggle's disjunct can only strengthen when the toggle turns
on. -/
theorem toggle_or_mono (x y p : Bool) (hxy : x = true → y = true)
    (h : (!y || p) = true) : (!x || p) = true := by
  cases hx : x
  · rfl
  · rw [hxy hx] at h
    exact h

/-- The conjunction of active filters is antitone in the toggle set:
more active toggles give a stronger predicate. -/
theorem filterPred_mono (t t2 : Toggles)
    (h1 : t.hide_weak_rs_1m = true → t2.hide_weak_rs_1m = true)
    (h2 : t.hide_weak_rs_1y = true → t2.hide_weak_rs_1y = true)
    (h3 : t.limit_extension = true → t2.limit_extension = true)
    (h4 : t.stage_2_only = true → t2.stage_2_only = true)
    (r : SnapshotRow) (h : filterPred t2 r = true) : filterPred t r = true := by
  simp only [filterPred, Bool.and_eq_true] at h ⊢
  obtain ⟨⟨⟨ha, hb⟩, hc⟩, hd⟩ := h
  exact ⟨⟨⟨toggle_or_mono _ _ _ h1 ha, toggle_or_mono _ _ _ h2 hb⟩,
    toggle_or_mono _ _ _ h3 hc⟩, toggle_or_mono _ _ _ h4 hd⟩

/-- C6: the active filters combine by logical AND — the surviving rows
are exactly one filter by the conjunction of the active predicates —
and enabling additional toggles never grows the surviving set: with
every toggle of `t` also active in `t2`, the `t2` survivors are a
sublist, hence a subset, of the `t` survivors, the total surviving row
count does not increase, and neither does any single group's surviving
row count. -/
theorem c6_filter_monotone (rows : List SnapshotRow) (t t2 : Toggles)
    (h1 : t.hide_weak_rs_1m = true → t2.hide_weak_rs_1m = true)
    (h2 : t.hide_weak_rs_1y = true → t2.hide_weak_rs_1y = true)
    (h3 : t.limit_extension = true → t2.limit_extension = true)
    (h4 : t.stage_2_only = true → t2.stage_2_only = true) :
    applyFilters t rows = rows.filter (filterPred t)
    ∧ (applyFilters t2 rows).Sublist (applyFilters t rows)
    ∧ (applyFilters t2 rows).length ≤ (applyFilters t rows).length
    ∧ (∀ r, r ∈ applyFilters t2 rows → r ∈ applyFilters t rows)
    ∧ ∀ g : String,
        ((applyFilters t2 rows).filter (fun r => cellEqStr r.group g)).length ≤
          ((applyFilters t rows).filter (fun r => cellEqStr r.group g)).length := by
  have hsub : (applyFilters t2 rows).Sublist (applyFilters t rows) := by
    rw [applyFilters_eq_filter, applyFilters_eq_filter]
    exact List.monotone_filter_right rows (fun r => filterPred_mono t t2 h1 h2 h3 h4 r)
  exact ⟨applyFilters_eq_filter t rows, hsub, hsub.length_le,
    fun r hr => hsub.subset hr, fun g => ((hsub.filter _).length_le)⟩

/-- C6 witness: turning the Core Model toggle on does not increase the
surviving count of a concrete one-row table. -/
theorem c6_filter_monotone_witness :
    (applyFilters (Toggles.mk false false false true) [strTwoRow]).length ≤
      (applyFilters (Toggles.mk false false false false) [strTwoRow]).length :=
  (c6_filter_monotone [strTwoRow] (Toggles.mk false false false false)
    (Toggles.mk false false false true)
    (fun h => h) (fun h => h) (fun h => h) (fun _ => rfl)).2.2.1

/-- The element selected by `getLast?` is in the list. -/
theorem mem_of_getLast?_eq {α : Type} :
    ∀ (l : List α) (x : α), l.getLast? = some x → x ∈ l
  | [], _, h => by cases h
  | [b], x, h => by
    have hb : b = x := by simpa using h
    rw [hb]
    exact List.mem_singleton_self x
  | b :: c :: cs, x, h => by
    have h2 : (c :: cs).getLast? = some x := by
      rw [List.getLast?_cons_cons] at h
      exact h
    exact List.mem_cons_of_mem b (mem_of_getLast?_eq (c :: cs) x h2)

/-- In a pairwise-related list, every element is the last one or
relates to it. -/
theorem pairwise_rel_getLast {α : Type} {r : α → α → Prop} :
    ∀ (l : List α), List.Pairwise r l → ∀ x, l.getLast? = some x →
      ∀ a ∈ l, a = x ∨ r a x
  | [], _, _, hx, _, _ => by cases hx
  | [b], _, x, hx, a, ha => by
    have hb : b = x := by simpa using hx
    have hab : a = b := by simpa using ha
    exact Or.inl (hab.trans hb)
  | b :: c :: cs, hp, x, hx, a, ha => by
    have hx2 : (c :: cs).getLast? = some x := by
      rw [List.getLast?_cons_cons] at hx
      exact hx
    rcases List.mem_cons.1 ha with ha1 | ha2
    · subst ha1
      exact Or.inr (List.rel_of_pairwise_cons hp (mem_of_getLast?_eq (c :: cs) x hx2))
    · exact pairwise_rel_getLast (c :: cs) (List.Pairwise.of_cons hp) x hx2 a ha2

/-- `lastNonNull` of a list whose last cell is non-null is that cell. -/
theorem lastNonNull_of_getLast? :
    ∀ (l : List Cell) (c : Cell), l.getLast? = some c → c ≠ Cell.missing →
      lastNonNull l = c
  | [], _, h, _ => by cases h
  | [b], c, h, _ => by
    have hb : b = c := by simpa using h
    rw [hb]
    rfl
  | b :: d :: ds, c, h, hc => by
    have h2 : (d :: ds).getLast? = some c := by
      rw [List.getLast?_cons_cons] at h
      exact h
    have ih := lastNonNull_of_getLast? (d :: ds) c h2 hc
    have hstep : lastNonNull (b :: d :: ds) =
        match lastNonNull (d :: ds) with
        | Cell.missing => b
        | e => e := rfl
    rw [hstep, ih]
    cases c with
    | num q => rfl
    | str s => rfl
    | missing => exact absurd rfl hc

/-- When the last date-sorted row of a ticker has a non-null value in a
column, `groupby.last()` returns exactly that value for the column. -/
theorem latestCell_of_getLast (daily : List DailyRow) (t : String)
    (f : DailyRow → Cell) (r : DailyRow)
    (h : (tickerRowsSorted daily t).getLast? = some r)
    (hf : f r ≠ Cell.missing) : latestCell daily t f = f r := by
  apply lastNonNull_of_getLast?
  · rw [List.getLast?_map, h]
    rfl
  · exact hf

/-- The date-sorted daily table is sorted by date. -/
theorem sortDaily_sorted (daily : List DailyRow) :
    List.Sorted (fun a b => a.date ≤ b.date) (sortDaily daily) := by
  have ht : IsTotal DailyRow (fun a b => a.date ≤ b.date) :=
    ⟨fun a b => le_total a.date b.date⟩
  have htr : IsTrans DailyRow (fun a b => a.date ≤ b.date) :=
    ⟨fun a b c hab hbc => le_trans hab hbc⟩
  exact List.sorted_insertionSort _ daily

/-- A ticker's date-sorted rows are a permutation of its rows in the
source table. -/
theorem tickerRowsSorted_perm (daily : List DailyRow) (t : String) :
    (tickerRowsSorted daily t).Perm (daily.filter (fun r => r.ticker = t)) :=
  List.Perm.filter _ (List.perm_insertionSort _ daily)

/-- A ticker's date-sorted rows are sorted by date. -/
theorem tickerRowsSorted_sorted (daily : List DailyRow) (t : String) :
    List.Sorted (fun a b => a.date ≤ b.date) (tickerRowsSorted daily t) :=
  List.Pairwise.sublist (List.filter_sublist _) (sortDaily_sorted daily)

/-- The dates of a ticker's date-sorted rows are ascending. -/
theorem tickerRowsSorted_dates_sorted (daily : List DailyRow) (t : String) :
    List.Sorted (fun a b : ℚ => a ≤ b)
      ((tickerRowsSorted daily t).map (fun r => r.date)) :=
  List.Pairwise.map _ (fun _ _ h => h) (tickerRowsSorted_sorted daily t)

/-- C1: the builder yields exactly one snapshot row per distinct daily
ticker — the output's ticker column is the deduplicated daily ticker
list, without repetition and covering exactly the daily tickers; each
row's trend series is the ticker's `rs_to_spy` column over its
date-sorted rows (a permutation of its daily rows, with dates
ascending), so the trend length equals the ticker's daily row count;
and a ticker with no weekly row gets a null stage rather than an
error. -/
theorem c1_snapshot_shape (daily : List DailyRow) (weekly : List WeeklyRow) :
    (load_and_process_rows daily weekly).map (fun s => s.ticker) = dailyTickers daily
    ∧ (dailyTickers daily).Nodup
    ∧ (∀ t, t ∈ dailyTickers daily ↔ t ∈ daily.map (fun r => r.ticker))
    ∧ ∀ s ∈ load_and_process_rows daily weekly,
        s.rsTrend = (tickerRowsSorted daily s.ticker).map (fun r => r.rs_to_spy)
        ∧ s.rsTrend.length = (daily.filter (fun r => r.ticker = s.ticker)).length
        ∧ (tickerRowsSorted daily s.ticker).Perm
            (daily.filter (fun r => r.ticker = s.ticker))
        ∧ List.Sorted (fun a b : ℚ => a ≤ b)
            ((tickerRowsSorted daily s.ticker).map (fun r => r.date))
        ∧ (weekly.filter (fun w => w.ticker = s.ticker) = [] →
            s.stage = Cell.missing) := by
  refine ⟨?_, List.nodup_dedup _, fun t => List.mem_dedup, ?_⟩
  · rw [load_and_process_rows, List.map_map]
    exact List.map_id _
  · intro s hs
    rw [load_and_process_rows] at hs
    obtain ⟨t, ht, rfl⟩ := List.mem_map.1 hs
    dsimp only
    refine ⟨rfl, ?_, tickerRowsSorted_perm daily t,
      tickerRowsSorted_dates_sorted daily t, ?_⟩
    · calc ((tickerRowsSorted daily t).map (fun r => r.rs_to_spy)).length
          = (tickerRowsSorted daily t).length := by
            rw [List.length_map]
        _ = (daily.filter (fun r => r.ticker = t)).length :=
            (tickerRowsSorted_perm daily t).length_eq
    · intro hw
      show stageCell weekly t = Cell.missing
      have hperm : ((sortWeekly weekly).filter (fun w => w.ticker = t)).Perm
          (weekly.filter (fun w => w.ticker = t)) :=
        List.Perm.filter _ (List.perm_insertionSort _ weekly)
      rw [hw] at hperm
      unfold stageCell
      rw [hperm.eq_nil]
      rfl

/-- Two concrete daily rows for ticker "A", listed out of date order. -/
def exDailyRow1 : DailyRow :=
  { ticker := "A"
    date := 1
    rs_to_spy := Cell.num 1
    ret_intraday := Cell.missing
    ret_1d := Cell.missing
    rs_rank_21d := Cell.missing
    rs_rank_252d := Cell.missing
    pp_volume := Cell.missing
    ratio_pct_dist_to_atr_pct := Cell.missing
    above_sma10 := Cell.missing
    above_sma20 := Cell.missing
    group := Cell.str "Market" }

/-- The later daily row of ticker "A". -/
def exDailyRow2 : DailyRow :=
  { exDailyRow1 with date := 2, rs_to_spy := Cell.num 2 }

/-- A two-row daily table, newest row first. -/
def exDaily : List DailyRow := [exDailyRow2, exDailyRow1]

/-- The snapshot row the builder produces for `exDaily` with an empty
weekly table. -/
def exSnapA : SnapshotRow :=
  { ticker := "A"
    rsTrend := [Cell.num 1, Cell.num 2]
    ret_intraday := Cell.missing
    ret_1d := Cell.missing
    rs_rank_21d := Cell.missing
    rs_rank_252d := Cell.missing
    pp_volume := Cell.missing
    ratio_pct_dist_to_atr_pct := Cell.missing
    above_sma10 := Cell.missing
    above_sma20 := Cell.missing
    group := Cell.str "Market"
    stage := Cell.missing }

/-- C1 witness: the theorem applied to the concrete two-row daily table
with an empty weekly table. -/
theorem c1_snapshot_shape_witness :
    exSnapA ∈ load_and_process_rows exDaily []
    ∧ exSnapA.rsTrend.length =
        (exDaily.filter (fun r => r.ticker = exSnapA.ticker)).length
    ∧ exSnapA.stage = Cell.missing := by
  have h := c1_snapshot_shape exDaily []
  have hmem : exSnapA ∈ load_and_process_rows exDaily [] := by decide
  exact ⟨hmem, (h.2.2.2 exSnapA hmem).2.1, (h.2.2.2 exSnapA hmem).2.2.2.2 rfl⟩

/-- A daily row of ticker "B" with a `ret_1d` value and the earlier
date. -/
def cexRow1 : DailyRow :=
  { ticker := "B"
    date := 1
    rs_to_spy := Cell.missing
    ret_intraday := Cell.missing
    ret_1d := Cell.num 5
    rs_rank_21d := Cell.missing
    rs_rank_252d := Cell.missing
    pp_volume := Cell.missing
    ratio_pct_dist_to_atr_pct := Cell.missing
    above_sma10 := Cell.missing
    above_sma20 := Cell.missing
    group := Cell.missing }

/-- The max-date daily row of ticker "B", with a null `ret_1d`. -/
def cexRow2 : DailyRow := { cexRow1 with date := 2, ret_1d := Cell.missing }

/-- A two-row daily table for ticker "B". -/
def cexDaily : List DailyRow := [cexRow1, cexRow2]

/-- C3 counterexample: ticker "B" has two rows; its unique maximum-date
row (date 2) has a null `ret_1d`, yet the snapshot's `ret_1d` is the
value 5 taken from the earlier row — the latest fields do not all come
from the max-date row. -/
theorem c3_latest_counterexample :
    ((cexDaily.filter (fun r => r.date = 2)).map (fun r => r.ret_1d) =
      [Cell.missing])
    ∧ (∀ r ∈ cexDaily, r.date ≤ 2)
    ∧ (load_and_process_rows cexDaily []).map (fun s => s.ret_1d) =
      [Cell.num 5] := by decide

/-- C3 amended: each non-trend field of a snapshot row is the last
non-null value of its column over the ticker's date-sorted daily rows
(pandas `groupby.last()` skips nulls per column).  The last date-sorted
row is a maximum-date row of the ticker, and whenever its value in a
column is non-null — in particular whenever that row is complete — the
snapshot's column value comes from it; a null there is instead
backfilled from an earlier row of the same ticker. -/
theorem c3_latest_per_column (daily : List DailyRow) (weekly : List WeeklyRow)
    (s : SnapshotRow) (hs : s ∈ load_and_process_rows daily weekly) :
    (s.ret_intraday = latestCell daily s.ticker (fun r => r.ret_intraday)
     ∧ s.ret_1d = latestCell daily s.ticker (fun r => r.ret_1d)
     ∧ s.rs_rank_21d = latestCell daily s.ticker (fun r => r.rs_rank_21d)
     ∧ s.rs_rank_252d = latestCell daily s.ticker (fun r => r.rs_rank_252d)
     ∧ s.pp_volume = latestCell daily s.ticker (fun r => r.pp_volume)
     ∧ s.ratio_pct_dist_to_atr_pct =
         latestCell daily s.ticker (fun r => r.ratio_pct_dist_to_atr_pct)
     ∧ s.above_sma10 = latestCell daily s.ticker (fun r => r.above_sma10)
     ∧ s.above_sma20 = latestCell daily s.ticker (fun r => r.above_sma20)
     ∧ s.group = latestCell daily s.ticker (fun r => r.group))
    ∧ ∀ r, (tickerRowsSorted daily s.ticker).getLast? = some r →
        (∀ r2 ∈ daily, r2.ticker = s.ticker → r2.date ≤ r.date)
        ∧ (r.ret_intraday ≠ Cell.missing → s.ret_intraday = r.ret_intraday)
        ∧ (r.ret_1d ≠ Cell.missing → s.ret_1d = r.ret_1d)
        ∧ (r.rs_rank_21d ≠ Cell.missing → s.rs_rank_21d = r.rs_rank_21d)
        ∧ (r.rs_rank_252d ≠ Cell.missing → s.rs_rank_252d = r.rs_rank_252d)
        ∧ (r.pp_volume ≠ Cell.missing → s.pp_volume = r.pp_volume)
        ∧ (r.ratio_pct_dist_to_atr_pct ≠ Cell.missing →
            s.ratio_pct_dist_to_atr_pct = r.ratio_pct_dist_to_atr_pct)
        ∧ (r.above_sma10 ≠ Cell.missing → s.above_sma10 = r.above_sma10)
        ∧ (r.above_sma20 ≠ Cell.missing → s.above_sma20 = r.above_sma20)
        ∧ (r.group ≠ Cell.missing → s.group = r.group) := by
  rw [load_and_process_rows] at hs
  obtain ⟨t, ht, rfl⟩ := List.mem_map.1 hs
  dsimp only
  refine ⟨⟨rfl, rfl, rfl, rfl, rfl, rfl, rfl, rfl, rfl⟩, ?_⟩
  intro r hr
  have hmax : ∀ r2 ∈ daily, r2.ticker = t → r2.date ≤ r.date := by
    intro r2 h2 ht2
    have hmem : r2 ∈ tickerRowsSorted daily t :=
      (tickerRowsSorted_perm daily t).mem_iff.2
        (List.mem_filter.2 ⟨h2, by simpa using ht2⟩)
    rcases pairwise_rel_getLast (tickerRowsSorted daily t)
        (tickerRowsSorted_sorted daily t) r hr r2 hmem with he | hle
    · subst he
      exact le_refl _
    · exact hle
  exact ⟨hmax,
    fun hne => latestCell_of_getLast daily t _ r hr hne,
    fun hne => latestCell_of_getLast daily t _ r hr hne,
    fun hne => latestCell_of_getLast daily t _ r hr hne,
    fun hne => latestCell_of_getLast daily t _ r hr hne,
    fun hne => latestCell_of_getLast daily t _ r hr hne,
    fun hne => latestCell_of_getLast daily t _ r hr hne,
    fun hne => latestCell_of_getLast daily t _ r hr hne,
    fun hne => latestCell_of_getLast daily t _ r hr hne,
    fun hne => latestCell_of_getLast daily t _ r hr hne⟩

/-- C3 witness: on the concrete two-row table, the last date-sorted row
is the max-date row and supplies the non-null `group` column. -/
theorem c3_latest_per_column_witness :
    exSnapA.group = exDailyRow2.group ∧ exDailyRow1.date ≤ exDailyRow2.date := by
  have h := (c3_latest_per_column exDaily [] exSnapA (by decide)).2
    exDailyRow2 (by decide)
  exact ⟨h.2.2.2.2.2.2.2.2.2 (by decide), h.1 exDailyRow1 (by decide) (by decide)⟩

/-- Appending two filters by disjoint predicates is a permutation of one
filter by their disjunction. -/
theorem filter_disjoint_append_perm {α : Type} (p q : α → Bool)
    (hdisj : ∀ a, p a = true → q a = false) :
    ∀ l : List α, (l.filter p ++ l.filter q).Perm (l.filter (fun a => p a || q a))
  | [] => List.Perm.refl _
  | a :: l => by
    have ih := filter_disjoint_append_perm p q hdisj l
    by_cases hp : p a = true
    · have hq : q a = false := hdisj a hp
      rw [List.filter_cons_of_pos hp, List.filter_cons_of_neg (by simp [hq]),
        List.filter_cons_of_pos (by simp [hp]), List.cons_append]
      exact ih.cons a
    · have hp2 : p a = false := by
        revert hp
        cases p a <;> simp
      by_cases hq : q a = true
      · rw [List.filter_cons_of_neg (by simp [hp2]), List.filter_cons_of_pos hq,
          List.filter_cons_of_pos (by simp [hp2, hq])]
        exact List.perm_middle.trans (ih.cons a)
      · have hq2 : q a = false := by
          revert hq
          cases q a <;> simp
        rw [List.filter_cons_of_neg (by simp [hp2]),
          List.filter_cons_of_neg (by simp [hq2]),
          List.filter_cons_of_neg (by simp [hp2, hq2])]
        exact ih

/-- Partition by a list of distinct group names: concatenating the
per-name filters is a permutation of filtering by membership of the
name list. -/
theorem flatMap_group_filter_perm (rows : List SnapshotRow) :
    ∀ ks : List String, ks.Nodup →
      (ks.flatMap (fun g => rows.filter (fun r => cellEqStr r.group g))).Perm
        (rows.filter (fun r => ks.any (fun g => cellEqStr r.group g)))
  | [], _ => by simp
  | g :: ks, hnd => by
    have hg : g ∉ ks := (List.nodup_cons.1 hnd).1
    have ih := flatMap_group_filter_perm rows ks (List.nodup_cons.1 hnd).2
    have hdisj : ∀ r : SnapshotRow, cellEqStr r.group g = true →
        (ks.any (fun g2 => cellEqStr r.group g2)) = false := by
      intro r hr
      rw [cellEqStr_eq_true_iff] at hr
      by_contra hne
      have hany : ks.any (fun g2 => cellEqStr r.group g2) = true := by
        revert hne
        cases ks.any (fun g2 => cellEqStr r.group g2) <;> simp
      obtain ⟨g2, hg2, hcell⟩ := List.any_eq_true.1 hany
      rw [hr, cellEqStr_eq_true_iff] at hcell
      rw [Cell.str.inj hcell] at hg
      exact hg hg2
    rw [List.flatMap_cons]
    refine List.Perm.trans (List.Perm.append_left _ ih) ?_
    refine List.Perm.trans (filter_disjoint_append_perm _ _ hdisj rows) ?_
    have heq : rows.filter
        (fun r => cellEqStr r.group g || ks.any (fun g2 => cellEqStr r.group g2)) =
        rows.filter (fun r => (g :: ks).any (fun g2 => cellEqStr r.group g2)) :=
      List.filter_congr (fun x _ => by rw [List.any_cons])
    rw [heq]

/-- The sections' rows, concatenated, are exactly the per-group filters
of the whole name list (a skipped empty group contributes nothing). -/
theorem sections_flatMap_eq (rows : List SnapshotRow) :
    ∀ ks : List String,
      ((ks.filterMap (sectionFun rows)).flatMap (fun sec => sec.2)) =
        ks.flatMap (fun g => rows.filter (fun r => cellEqStr r.group g))
  | [] => rfl
  | g :: ks => by
    have ih := sections_flatMap_eq rows ks
    by_cases he : (rows.filter (fun r => cellEqStr r.group g)).isEmpty
    · have hfg : sectionFun rows g = none := by
        show (if (rows.filter (fun r => cellEqStr r.group g)).isEmpty then none
          else some (g, rows.filter (fun r => cellEqStr r.group g))) = none
        rw [if_pos he]
      rw [List.filterMap_cons_none hfg, List.flatMap_cons, List.isEmpty_iff.1 he,
        List.nil_append]
      exact ih
    · have hfg : sectionFun rows g =
          some (g, rows.filter (fun r => cellEqStr r.group g)) := by
        show (if (rows.filter (fun r => cellEqStr r.group g)).isEmpty then none
          else some (g, rows.filter (fun r => cellEqStr r.group g))) = _
        rw [if_neg he]
      rw [List.filterMap_cons_some hfg, List.flatMap_cons, List.flatMap_cons, ih]

/-- The section names are a subsequence of the group name list. -/
theorem sections_names_sublist (rows : List SnapshotRow) :
    ∀ ks : List String,
      ((ks.filterMap (sectionFun rows)).map (fun sec => sec.1)).Sublist ks
  | [] => List.Sublist.refl _
  | g :: ks => by
    have ih := sections_names_sublist rows ks
    by_cases he : (rows.filter (fun r => cellEqStr r.group g)).isEmpty
    · have hfg : sectionFun rows g = none := by
        show (if (rows.filter (fun r => cellEqStr r.group g)).isEmpty then none
          else some (g, rows.filter (fun r => cellEqStr r.group g))) = none
        rw [if_pos he]
      rw [List.filterMap_cons_none hfg]
      exact ih.cons g
    · have hfg : sectionFun rows g =
          some (g, rows.filter (fun r => cellEqStr r.group g)) := by
        show (if (rows.filter (fun r => cellEqStr r.group g)).isEmpty then none
          else some (g, rows.filter (fun r => cellEqStr r.group g))) = _
        rw [if_neg he]
      rw [List.filterMap_cons_some hfg, List.map_cons]
      exact ih.cons₂ g

/-- A displayed section holds exactly the filtered rows of its group
name and is never empty. -/
theorem groupSections_mem_eq (rows : List SnapshotRow)
    (sec : String × List SnapshotRow) (h : sec ∈ groupSections rows) :
    sec.2 = rows.filter (fun r => cellEqStr r.group sec.1) ∧ sec.2 ≠ [] := by
  obtain ⟨g, hg, hfg⟩ := List.mem_filterMap.1 h
  have hfg2 : (if (rows.filter (fun r => cellEqStr r.group g)).isEmpty then none
      else some (g, rows.filter (fun r => cellEqStr r.group g))) = some sec := hfg
  by_cases he : (rows.filter (fun r => cellEqStr r.group g)).isEmpty
  · rw [if_pos he] at hfg2
    cases hfg2
  · rw [if_neg he] at hfg2
    obtain rfl := Option.some.inj hfg2
    refine ⟨rfl, fun hnil => ?_⟩
    apply he
    have hnil2 : rows.filter (fun r => cellEqStr r.group g) = [] := hnil
    rw [hnil2]
    rfl

/-- Distinct sections never share a row: each section's rows carry that
section's group name. -/
theorem groupSections_disjoint (rows : List SnapshotRow) :
    (groupSections rows).Pairwise (fun a b => ∀ r, r ∈ a.2 → r ∉ b.2) := by
  have hnames : ((groupSections rows).map (fun sec => sec.1)).Nodup :=
    (sections_names_sublist rows GROUP_ORDER).nodup (by decide)
  have hne : (groupSections rows).Pairwise (fun a b => a.1 ≠ b.1) :=
    List.pairwise_map.1 hnames
  refine List.Pairwise.imp_of_mem ?_ hne
  intro a b ha hb hab r hra hrb
  have e1 := (groupSections_mem_eq rows a ha).1
  have e2 := (groupSections_mem_eq rows b hb).1
  rw [e1] at hra
  rw [e2] at hrb
  have g1 : r.group = Cell.str a.1 :=
    (cellEqStr_eq_true_iff _ _).1 (List.mem_filter.1 hra).2
  have g2 : r.group = Cell.str b.1 :=
    (cellEqStr_eq_true_iff _ _).1 (List.mem_filter.1 hrb).2
  exact hab (Cell.str.inj (g1.symm.trans g2))

/-- A filtered row whose group name is not one of the seven fixed ones. -/
def fooRow : SnapshotRow := { strTwoRow with group := Cell.str "Other" }

/-- C5 counterexample: a filtered row whose `group` value is not one of
the seven fixed names appears in no displayed section — the sections
are empty while the filtered row set is not, so the displayed sections
do not partition every filtered row set. -/
theorem c5_partition_counterexample :
    groupSections [fooRow] = [] ∧ ([fooRow] : List SnapshotRow) ≠ [] := by decide

/-- C5 amended: the displayed sections partition the filtered rows
whose `group` cell is one of the seven fixed names: concatenated, the
sections' rows are a permutation of exactly those rows; the section
names are a subsequence of the fixed order (only the seven names, in
that order, each at most once); sections are pairwise disjoint; and a
group with no surviving rows produces no section.  A row with any other
group value appears in no section. -/
theorem c5_group_sections (rows : List SnapshotRow) :
    ((groupSections rows).flatMap (fun sec => sec.2)).Perm
      (rows.filter (fun r => GROUP_ORDER.any (fun g => cellEqStr r.group g)))
    ∧ ((groupSections rows).map (fun sec => sec.1)).Sublist GROUP_ORDER
    ∧ (groupSections rows).Pairwise (fun a b => ∀ r, r ∈ a.2 → r ∉ b.2)
    ∧ ∀ sec ∈ groupSections rows, sec.2 ≠ [] := by
  refine ⟨?_, sections_names_sublist rows GROUP_ORDER, groupSections_disjoint rows,
    fun sec hs => (groupSections_mem_eq rows sec hs).2⟩
  unfold groupSections
  rw [sections_flatMap_eq rows GROUP_ORDER]
  exact flatMap_group_filter_perm rows GROUP_ORDER (by decide)

/-- C5 witness: the theorem applied to a concrete one-row table whose
row lies in the "Market" group. -/
theorem c5_group_sections_witness :
    ((groupSections [strTwoRow]).map (fun sec => sec.1)).Sublist GROUP_ORDER
    ∧ ∀ sec ∈ groupSections [strTwoRow], sec.2 ≠ [] :=
  ⟨(c5_group_sections [strTwoRow]).2.1, (c5_group_sections [strTwoRow]).2.2.2⟩
